import Mathlib

/-!
Shallow embedding of the City-Data-Analysis-Dashboard pipeline
(geographic resolver, census/BLS time-series fetchers, crime-table
scraper, and the reconciliation/trend engine), together with theorems
settling the specification claims about it.

Python strings are modelled as Lean `String`, Python floats as `ℚ` where
only ordering/arithmetic on finite decimal data matters and as `ℝ` where
fractional powers occur, Python `None`/NaN as `Option`, and network
responses as explicit parameters describing the outcome of each request.
-/

namespace CityDash

/-! ## Python string-operation helpers

Implemented by structural recursion over `List Char` so that every
definition evaluates by kernel reduction on concrete inputs. -/

/-- `needle` occurs as a contiguous substring of the character list. -/
def containsList (needle : List Char) : List Char → Bool
  | [] => needle.isEmpty
  | c :: rest => needle.isPrefixOf (c :: rest) || containsList needle rest

/-- Python `needle in hay` (substring containment). -/
def pyContains (hay needle : String) : Bool :=
  containsList needle.toList hay.toList

/-- Python `s.isdigit()`: nonempty and all characters are digits. -/
def pyIsDigit (s : String) : Bool :=
  !s.isEmpty && s.toList.all Char.isDigit

/-- Fuel-driven worker for `pySplitOn`; fuel `chars.length + 1` always
suffices for a nonempty separator, making the function total by
structural recursion. -/
def pySplitGo (sep : List Char) : Nat → List Char → List Char → List (List Char)
  | 0, rest, cur => [cur.reverse ++ rest]
  | _ + 1, [], cur => [cur.reverse]
  | n + 1, c :: rest, cur =>
    if sep.isPrefixOf (c :: rest) then
      cur.reverse :: pySplitGo sep n ((c :: rest).drop sep.length) []
    else
      pySplitGo sep n rest (c :: cur)

/-- Python `s.split(sep)` for a nonempty separator. -/
def pySplitOn (s sep : String) : List String :=
  (pySplitGo sep.toList (s.toList.length + 1) s.toList []).map fun l => String.mk l

/-- Python `s.replace(pattern, repl)` (replaces every non-overlapping
occurrence, left to right). -/
def pyReplace (s pattern repl : String) : String :=
  String.mk
    (List.intercalate repl.toList (pySplitGo pattern.toList (s.toList.length + 1) s.toList []))

/-- Python `s.strip()`. -/
def pyTrim (s : String) : String :=
  String.mk (((s.toList.dropWhile Char.isWhitespace).reverse.dropWhile Char.isWhitespace).reverse)

/-- Python `s.lower()` (ASCII case folding, which covers every string the
program manipulates). -/
def pyLower (s : String) : String :=
  String.mk (s.toList.map Char.toLower)

/-- Python `s.startswith(pre)`. -/
def pyStartsWith (s pre : String) : Bool :=
  pre.toList.isPrefixOf s.toList

/-- Python `s.endswith(post)`. -/
def pyEndsWith (s post : String) : Bool :=
  post.toList.isSuffixOf s.toList

/-! ## `utils/area_converter.py`: `get_county_fips_code`

The Census county-list request is modelled by a `FetchResult` input: either
the parsed rows `[NAME, state, county]` of the API response (we keep the
`NAME` and the county FIPS column), or an error standing for any raised
exception (network error, HTTP error, malformed JSON). -/

/-- One row of the Census county-list response: the display `name`
(first column) and the county `fips` (third column). -/
structure CountyRow where
  name : String
  fips : String
deriving Repr, DecidableEq

/-- Outcome of an HTTP fetch plus parsing, as seen by the caller. -/
inductive FetchResult (α : Type) where
  | ok (val : α)
  | error (msg : String)
deriving Repr

/-- `name.split(',')[0].replace(' County', '').strip()` applied to a
candidate county name from the API response. -/
def cleanCandidate (name : String) : String :=
  pyTrim (pyReplace ((pySplitOn name ",").headD name) " County" "")

/-- `county_name.replace(' County', '').strip()` applied to the query. -/
def cleanQuery (name : String) : String :=
  pyTrim (pyReplace name " County" "")

/-- The exact-match test of the loop body:
`county_name.lower() == clean_name.lower()`. -/
def rowMatchesExact (q : String) (c : CountyRow) : Bool :=
  pyLower q == pyLower (cleanCandidate c.name)

/-- The partial-match test of the loop body:
`county_name.lower() in clean_name.lower() or clean_name.lower() in county_name.lower()`. -/
def rowMatchesSub (q : String) (c : CountyRow) : Bool :=
  pyContains (pyLower (cleanCandidate c.name)) (pyLower q)
    || pyContains (pyLower q) (pyLower (cleanCandidate c.name))

/-- A candidate is accepted by one iteration of the loop iff it matches
exactly or by substring. -/
def rowMatches (q : String) (c : CountyRow) : Bool :=
  rowMatchesExact q c || rowMatchesSub q c

/-- The `for county in counties` loop of `get_county_fips_code`: each
candidate in order is tested for an exact match, then for a substring
match; the first candidate passing either test is returned. -/
def findFips (q : String) : List CountyRow → Option String
  | [] => none
  | c :: rest =>
    if rowMatchesExact q c then some c.fips
    else if rowMatchesSub q c then some c.fips
    else findFips q rest

/-- `get_county_fips_code(state_fips, county_name, key)` with the network
interaction abstracted into `fetch`: any exception yields `'000'`; an
unmatched county name yields `'000'`; otherwise the first matching
candidate's FIPS code. -/
def get_county_fips_code (fetch : FetchResult (List CountyRow)) (county_name : String) :
    String :=
  match fetch with
  | .error _ => "000"
  | .ok counties =>
    match findFips (cleanQuery county_name) counties with
    | some f => f
    | none => "000"

theorem findFips_eq_of_matches (q : String) (pre : List CountyRow) (c : CountyRow)
    (post : List CountyRow) (hpre : ∀ c' ∈ pre, rowMatches q c' = false)
    (hc : rowMatches q c = true) :
    findFips q (pre ++ c :: post) = some c.fips := by
  induction pre with
  | nil =>
    rcases Bool.or_eq_true _ _ |>.mp hc with h | h
    · simp [findFips, h]
    · unfold findFips
      by_cases he : rowMatchesExact q c = true
      · simp [he]
      · simp [he, h]
  | cons p ps ih =>
    have hp : rowMatches q p = false := hpre p (by simp)
    have hpe : rowMatchesExact q p = false := by
      rcases Bool.or_eq_false_iff.mp hp with ⟨h1, _⟩
      exact h1
    have hps : rowMatchesSub q p = false := by
      rcases Bool.or_eq_false_iff.mp hp with ⟨_, h2⟩
      exact h2
    have := ih (fun c' hc' => hpre c' (by simp [hc']))
    simpa [findFips, hpe, hps] using this

theorem findFips_eq_none (q : String) (counties : List CountyRow)
    (h : ∀ c ∈ counties, rowMatches q c = false) :
    findFips q counties = none := by
  induction counties with
  | nil => rfl
  | cons c rest ih =>
    have hc : rowMatches q c = false := h c (by simp)
    have hce : rowMatchesExact q c = false := (Bool.or_eq_false_iff.mp hc).1
    have hcs : rowMatchesSub q c = false := (Bool.or_eq_false_iff.mp hc).2
    simp [findFips, hce, hcs, ih (fun c' hc' => h c' (by simp [hc']))]

theorem findFips_mem (q : String) (counties : List CountyRow) (f : String)
    (h : findFips q counties = some f) :
    ∃ c ∈ counties, rowMatches q c = true ∧ c.fips = f := by
  induction counties with
  | nil => simp [findFips] at h
  | cons c rest ih =>
    by_cases hce : rowMatchesExact q c = true
    · refine ⟨c, by simp, ?_, ?_⟩
      · simp [rowMatches, hce]
      · simp [findFips, hce] at h
        exact h
    · by_cases hcs : rowMatchesSub q c = true
      · refine ⟨c, by simp, ?_, ?_⟩
        · simp [rowMatches, hcs]
        · simp [findFips, hce, hcs] at h
          exact h
      · simp [findFips, hce, hcs] at h
        obtain ⟨c', hc', hm, hf⟩ := ih h
        exact ⟨c', by simp [hc'], hm, hf⟩

/-- C3, counterexample: with query `"York"` and candidate list
`["New York County, New York", "York County, New York"]` the code returns
the FIPS of the first candidate (which matches only by substring) even
though the second candidate matches exactly, so an exact match anywhere in
the list does NOT take priority over an earlier substring match. -/
theorem C3_counterexample :
    get_county_fips_code
        (.ok [⟨"New York County, New York", "061"⟩, ⟨"York County, New York", "123"⟩])
        "York" = "061" ∧
    rowMatchesExact (cleanQuery "York") ⟨"York County, New York", "123"⟩ = true ∧
    ("061" : String) ≠ "123" := by
  refine ⟨by decide, by decide, by decide⟩

/-- C3 (amended): county-FIPS resolution strips `' County'` from the query
and each candidate and compares case-insensitively, scanning candidates in
order; the FIRST candidate that matches exactly or by bidirectional
substring containment wins (an exact match later in the list does not take
priority over an earlier substring match), and if no candidate matches
either way the sentinel `'000'` is returned. -/
theorem C3_first_match_wins (q : String) (pre : List CountyRow) (c : CountyRow)
    (post : List CountyRow)
    (hpre : ∀ c' ∈ pre, rowMatches (cleanQuery q) c' = false)
    (hc : rowMatches (cleanQuery q) c = true) :
    get_county_fips_code (.ok (pre ++ c :: post)) q = c.fips ∧
    (∀ counties : List CountyRow,
      (∀ c' ∈ counties, rowMatches (cleanQuery q) c' = false) →
      get_county_fips_code (.ok counties) q = "000") := by
  constructor
  · show (match findFips (cleanQuery q) (pre ++ c :: post) with
      | some f => f | none => "000") = c.fips
    rw [findFips_eq_of_matches (cleanQuery q) pre c post hpre hc]
  · intro counties hnone
    show (match findFips (cleanQuery q) counties with
      | some f => f | none => "000") = "000"
    rw [findFips_eq_none (cleanQuery q) counties hnone]

/-- Witness for `C3_first_match_wins` at a concrete query and candidate
lists. -/
theorem C3_first_match_wins_witness :
    get_county_fips_code
        (.ok [⟨"Kings County, New York", "047"⟩, ⟨"York County, New York", "123"⟩])
        "York" = "123" ∧
    get_county_fips_code (.ok [⟨"Kings County, New York", "047"⟩]) "York" = "000" :=
  ⟨(C3_first_match_wins "York" [⟨"Kings County, New York", "047"⟩]
      ⟨"York County, New York", "123"⟩ [] (by decide) (by decide)).1,
   (C3_first_match_wins "York" [] ⟨"York County, New York", "123"⟩ []
      (by decide) (by decide)).2 [⟨"Kings County, New York", "047"⟩] (by decide)⟩

/-- C10: the county-FIPS lookup is total and never raises: a failed or
malformed county-list fetch yields the sentinel `'000'`, every other path
yields either a matched candidate's FIPS code or `'000'`, and a fetch
failure is indistinguishable in the result from an unmatched county name. -/
theorem C10_lookup_never_fails (county_name : String) :
    (∀ msg, get_county_fips_code (.error msg) county_name = "000") ∧
    (∀ counties : List CountyRow,
      get_county_fips_code (.ok counties) county_name = "000" ∨
      ∃ c ∈ counties, rowMatches (cleanQuery county_name) c = true ∧
        get_county_fips_code (.ok counties) county_name = c.fips) ∧
    (∀ msg (counties : List CountyRow),
      (∀ c ∈ counties, rowMatches (cleanQuery county_name) c = false) →
      get_county_fips_code (.error msg) county_name =
        get_county_fips_code (.ok counties) county_name) := by
  refine ⟨fun msg => rfl, fun counties => ?_, fun msg counties hnone => ?_⟩
  · cases hf : findFips (cleanQuery county_name) counties with
    | none =>
      left
      show (match findFips (cleanQuery county_name) counties with
        | some f => f | none => "000") = "000"
      rw [hf]
    | some f =>
      right
      obtain ⟨c, hmem, hm, hfips⟩ := findFips_mem _ _ _ hf
      refine ⟨c, hmem, hm, ?_⟩
      show (match findFips (cleanQuery county_name) counties with
        | some f => f | none => "000") = c.fips
      rw [hf, hfips]
  · show "000" = (match findFips (cleanQuery county_name) counties with
      | some f => f | none => "000")
    rw [findFips_eq_none _ _ hnone]

/-- Witness for `C10_lookup_never_fails` at a concrete query, error and
candidate list. -/
theorem C10_lookup_never_fails_witness :
    get_county_fips_code (.error "Connection refused") "Orange" = "000" ∧
    get_county_fips_code (.error "Connection refused") "Orange" =
      get_county_fips_code (.ok [⟨"Kings County, New York", "047"⟩]) "Orange" :=
  ⟨(C10_lookup_never_fails "Orange").1 "Connection refused",
   (C10_lookup_never_fails "Orange").2.2 "Connection refused"
      [⟨"Kings County, New York", "047"⟩] (by decide)⟩

/-! ## `utils/area_converter.py`: `convert_input_to_target_areas`

The city-data.com scrape and the county-FIPS lookup for one input row are
modelled by a `ScrapeOutcome` attached to the row: either the county name
extracted from the breadcrumb together with the FIPS string produced by
`get_county_fips_code` (which never raises), or a failure standing for any
of the raised `ValueError`s (missing page, missing breadcrumb or county
link, HTTP error). -/

/-- Python dict insert: overwrite an existing key in place, else append. -/
def upsert {β : Type} (k : String) (v : β) : List (String × β) → List (String × β)
  | [] => [(k, v)]
  | (k', v') :: rest => if k' == k then (k, v) :: rest else (k', v') :: upsert k v rest

/-- One resolved target area (`target_areas[area_id]` in the source). -/
structure TargetArea where
  city : String
  state : String
  county : String
  fips_state : String
  fips_county : String
deriving Repr, DecidableEq

/-- Outcome of scraping one city's profile page. -/
inductive ScrapeOutcome where
  | county (name : String) (fipsCounty : String)
  | failure (msg : String)
deriving Repr, DecidableEq

/-- One row of the user-input table together with the outcome the network
would produce for it. -/
structure InputRow where
  city : String
  state : String
  scrape : ScrapeOutcome
deriving Repr, DecidableEq

/-- The `state_mapping` lookup table of `convert_input_to_target_areas`:
2-letter code to display name for the 50 states plus DC. -/
def state_mapping : List (String × String) :=
  [("AL", "Alabama"), ("AK", "Alaska"), ("AZ", "Arizona"), ("AR", "Arkansas"),
   ("CA", "California"), ("CO", "Colorado"), ("CT", "Connecticut"), ("DE", "Delaware"),
   ("FL", "Florida"), ("GA", "Georgia"), ("HI", "Hawaii"), ("ID", "Idaho"),
   ("IL", "Illinois"), ("IN", "Indiana"), ("IA", "Iowa"), ("KS", "Kansas"),
   ("KY", "Kentucky"), ("LA", "Louisiana"), ("ME", "Maine"), ("MD", "Maryland"),
   ("MA", "Massachusetts"), ("MI", "Michigan"), ("MN", "Minnesota"), ("MS", "Mississippi"),
   ("MO", "Missouri"), ("MT", "Montana"), ("NE", "Nebraska"), ("NV", "Nevada"),
   ("NH", "New-Hampshire"), ("NJ", "New-Jersey"), ("NM", "New-Mexico"), ("NY", "New-York"),
   ("NC", "North-Carolina"), ("ND", "North-Dakota"), ("OH", "Ohio"), ("OK", "Oklahoma"),
   ("OR", "Oregon"), ("PA", "Pennsylvania"), ("RI", "Rhode-Island"), ("SC", "South-Carolina"),
   ("SD", "South-Dakota"), ("TN", "Tennessee"), ("TX", "Texas"), ("UT", "Utah"),
   ("VT", "Vermont"), ("VA", "Virginia"), ("WA", "Washington"), ("WV", "West-Virginia"),
   ("WI", "Wisconsin"), ("WY", "Wyoming"), ("DC", "District-of-Columbia")]

/-- The `state_fips` lookup table: 2-letter code to 2-digit state FIPS. -/
def state_fips : List (String × String) :=
  [("AL", "01"), ("AK", "02"), ("AZ", "04"), ("AR", "05"), ("CA", "06"), ("CO", "08"),
   ("CT", "09"), ("DE", "10"), ("FL", "12"), ("GA", "13"), ("HI", "15"), ("ID", "16"),
   ("IL", "17"), ("IN", "18"), ("IA", "19"), ("KS", "20"), ("KY", "21"), ("LA", "22"),
   ("ME", "23"), ("MD", "24"), ("MA", "25"), ("MI", "26"), ("MN", "27"), ("MS", "28"),
   ("MO", "29"), ("MT", "30"), ("NE", "31"), ("NV", "32"), ("NH", "33"), ("NJ", "34"),
   ("NM", "35"), ("NY", "36"), ("NC", "37"), ("ND", "38"), ("OH", "39"), ("OK", "40"),
   ("OR", "41"), ("PA", "42"), ("RI", "44"), ("SC", "45"), ("SD", "46"), ("TN", "47"),
   ("TX", "48"), ("UT", "49"), ("VT", "50"), ("VA", "51"), ("WA", "53"), ("WV", "54"),
   ("WI", "55"), ("WY", "56"), ("DC", "11")]

/-- Python `d.get(k)` / `k in d` on a dict modelled as an assoc list. -/
def lookupKey {β : Type} (m : List (String × β)) (k : String) : Option β :=
  (m.find? (fun p => p.1 == k)).map (·.2)

/-- `f"{city.lower().replace(' ', '_')}_{state.lower()}"`. -/
def areaId (city state : String) : String :=
  pyReplace (pyLower city) " " "_" ++ "_" ++ pyLower state

/-- The `for _, row in input_df.iterrows()` loop: an unknown state code
prints an error and `continue`s; a scrape failure raises `ValueError`
(aborting the whole conversion); a successful scrape adds the resolved
area under its `area_id`. -/
def convertGo : List InputRow → List (String × TargetArea) →
    Except String (List (String × TargetArea))
  | [], acc => .ok acc
  | r :: rest, acc =>
    match lookupKey state_mapping r.state with
    | none => convertGo rest acc
    | some _ =>
      match r.scrape with
      | .failure msg => .error msg
      | .county cname cfips =>
        convertGo rest
          (upsert (areaId r.city r.state)
            ⟨r.city, r.state, cname, (lookupKey state_fips r.state).getD "00", cfips⟩ acc)

/-- `convert_input_to_target_areas(input_df)`: run the row loop, then raise
`ValueError('No valid cities could be processed')` when no area was
resolved. -/
def convert_input_to_target_areas (rows : List InputRow) :
    Except String (List (String × TargetArea)) :=
  match convertGo rows [] with
  | .error msg => .error msg
  | .ok acc =>
    if acc.isEmpty then .error "No valid cities could be processed" else .ok acc

/-- C5, counterexample: an input row with the unrecognized state code
`"ZZ"` is skipped and the run continues, successfully resolving the
remaining city — it does not fail immediately. -/
theorem C5_counterexample :
    lookupKey state_mapping "ZZ" = none ∧
    convert_input_to_target_areas
        [⟨"Springfield", "ZZ", .county "Sangamon County" "167"⟩,
         ⟨"Miami", "FL", .county "Miami-Dade County" "086"⟩] =
      .ok [("miami_fl", ⟨"Miami", "FL", "Miami-Dade County", "12", "086"⟩)] := by
  refine ⟨rfl, rfl⟩

/-- C5 (amended): a row whose 2-letter state code is not a key of the fixed
lookup table is skipped (resolution continues with the remaining rows
exactly as if the row were absent); the run fails with
`'No valid cities could be processed'` only when no row at all produces a
target area, e.g. on an empty input. -/
theorem C5_unknown_state_skipped (r : InputRow) (rows : List InputRow)
    (h : lookupKey state_mapping r.state = none) :
    convert_input_to_target_areas (r :: rows) = convert_input_to_target_areas rows ∧
    convert_input_to_target_areas [] = .error "No valid cities could be processed" := by
  constructor
  · unfold convert_input_to_target_areas
    have : convertGo (r :: rows) [] = convertGo rows [] := by
      show (match lookupKey state_mapping r.state with
        | none => convertGo rows []
        | some _ =>
          match r.scrape with
          | .failure msg => .error msg
          | .county cname cfips =>
            convertGo rows
              (upsert (areaId r.city r.state)
                ⟨r.city, r.state, cname, (lookupKey state_fips r.state).getD "00", cfips⟩
                [])) = convertGo rows []
      rw [h]
    rw [this]
  · rfl

/-- Witness for `C5_unknown_state_skipped` at a concrete row list. -/
theorem C5_unknown_state_skipped_witness :
    convert_input_to_target_areas
        [⟨"Springfield", "ZZ", .county "Sangamon County" "167"⟩,
         ⟨"Miami", "FL", .county "Miami-Dade County" "086"⟩] =
      convert_input_to_target_areas [⟨"Miami", "FL", .county "Miami-Dade County" "086"⟩] ∧
    convert_input_to_target_areas [] = .error "No valid cities could be processed" :=
  C5_unknown_state_skipped ⟨"Springfield", "ZZ", .county "Sangamon County" "167"⟩
    [⟨"Miami", "FL", .county "Miami-Dade County" "086"⟩] rfl

/-! ## `data_collection/census_data.py`: `get_census_data`

The per-(year, area) Census API request is modelled by a `fetch` parameter
returning `some (population, median_age)` on success and `none` for any
raised exception (HTTP error, malformed JSON, missing variable). Floats
are modelled as `ℚ`. -/

/-- `range(start_year, end_year + 1)`. -/
def yearRange (s e : ℤ) : List ℤ :=
  (List.range (e + 1 - s).toNat).map fun i : ℕ => s + (i : ℤ)

/-- The skip test `area_info['fips_county'] == '000' or ... == ''`,
negated: the area is fetched iff this holds. -/
def validArea (a : TargetArea) : Bool :=
  !(a.fips_county == "000" || a.fips_county == "")

/-- One row of `all_population_data`. -/
structure PopRecord where
  year : ℤ
  city : String
  state : String
  county : String
  population : Option ℚ
deriving Repr, DecidableEq

/-- The years the Census loop actually requests: the requested range with
the `if year < 2009: continue` filter applied. -/
def censusYears (s e : ℤ) : List ℤ :=
  (yearRange s e).filter fun y => decide (2009 ≤ y)

/-- The population record appended for one `(year, area)` request: the
fetched value on success, a null placeholder on any exception. -/
def censusRec (fetch : ℤ → TargetArea → Option (ℚ × ℚ)) (y : ℤ) (a : TargetArea) :
    PopRecord :=
  match fetch y a with
  | some pm => ⟨y, a.city, a.state, a.county, some pm.1⟩
  | none => ⟨y, a.city, a.state, a.county, none⟩

/-- The population-record side of the `get_census_data` collection loops:
for each year from `start_year` to `end_year` (skipping years before
2009) and each target area with a valid county FIPS, exactly one record is
appended. -/
def get_census_pop_records (s e : ℤ) (areas : List TargetArea)
    (fetch : ℤ → TargetArea → Option (ℚ × ℚ)) : List PopRecord :=
  (censusYears s e).flatMap fun y => (areas.filter validArea).map (censusRec fetch y)

theorem censusRec_population (fetch : ℤ → TargetArea → Option (ℚ × ℚ)) (y : ℤ)
    (a : TargetArea) :
    censusRec fetch y a = ⟨y, a.city, a.state, a.county, (fetch y a).map Prod.fst⟩ := by
  unfold censusRec
  cases fetch y a <;> rfl

/-- The filter identifying the record of one `(area, year)` pair. -/
def pairMatch (a : TargetArea) (y : ℤ) (r : PopRecord) : Bool :=
  r.city == a.city && r.state == a.state && r.county == a.county && r.year == y

theorem pairMatch_censusRec (a a' : TargetArea) (y y' : ℤ)
    (fetch : ℤ → TargetArea → Option (ℚ × ℚ)) :
    pairMatch a y (censusRec fetch y' a') =
      (a'.city == a.city && a'.state == a.state && a'.county == a.county && y' == y) := by
  unfold pairMatch censusRec
  cases fetch y' a' <;> rfl

/-- The location identity used to tell areas apart. -/
def tripleOf (a : TargetArea) : String × String × String :=
  (a.city, a.state, a.county)

theorem pairMatch_censusRec_true (a a' : TargetArea) (y y' : ℤ)
    (fetch : ℤ → TargetArea → Option (ℚ × ℚ)) :
    pairMatch a y (censusRec fetch y' a') = true ↔
      tripleOf a' = tripleOf a ∧ y' = y := by
  rw [pairMatch_censusRec]
  simp [tripleOf, Prod.ext_iff, and_assoc]

theorem filter_pairMatch_map (fetch : ℤ → TargetArea → Option (ℚ × ℚ)) (y : ℤ)
    (a : TargetArea) (l : List TargetArea) (hmem : a ∈ l)
    (hnodup : (l.map tripleOf).Nodup) :
    (l.map (censusRec fetch y)).filter (pairMatch a y) = [censusRec fetch y a] := by
  induction l with
  | nil => simp at hmem
  | cons b bs ih =>
    simp only [List.map_cons, List.nodup_cons, List.mem_map] at hnodup
    obtain ⟨hbnot, hbsnodup⟩ := hnodup
    by_cases htrip : tripleOf b = tripleOf a
    · have hab : a = b := by
        rcases List.mem_cons.mp hmem with h | h
        · exact h
        · exact absurd ⟨a, h, htrip.symm⟩ hbnot
      subst hab
      have hhead : pairMatch a y (censusRec fetch y a) = true :=
        (pairMatch_censusRec_true a a y y fetch).mpr ⟨rfl, rfl⟩
      have htail : (bs.map (censusRec fetch y)).filter (pairMatch a y) = [] := by
        rw [List.filter_eq_nil_iff]
        intro r hr
        obtain ⟨x, hx, hxr⟩ := List.mem_map.mp hr
        rw [← hxr]
        intro hmatch
        obtain ⟨ht, _⟩ := (pairMatch_censusRec_true a x y y fetch).mp hmatch
        exact hbnot ⟨x, hx, ht⟩
      simp [List.filter_cons, hhead, htail]
    · have hhfalse : pairMatch a y (censusRec fetch y b) = false := by
        rw [Bool.eq_false_iff]
        intro hmatch
        exact htrip ((pairMatch_censusRec_true a b y y fetch).mp hmatch).1
      have hamem : a ∈ bs := by
        rcases List.mem_cons.mp hmem with h | h
        · exact absurd (h ▸ rfl) htrip
        · exact h
      simp [List.filter_cons, hhfalse, ih hamem hbsnodup]

/-! ## `data_collection/bls_data.py`: `get_bls_data` (record collection)

The BLS API call for one batch of series IDs in one year is modelled by a
`respond` parameter: `failure` stands for a raised exception or a response
whose status is not `REQUEST_SUCCEEDED`; `success` carries the parsed
series list of the response (each series: its ID and its data values,
`data[0]` being used). -/

/-- One series of a successful BLS response. -/
structure SeriesData where
  seriesID : String
  data : List ℚ
deriving Repr, DecidableEq

/-- Outcome of one BLS batch request. -/
inductive BlsBatchResult where
  | failure (msg : String)
  | success (series : List SeriesData)
deriving Repr, DecidableEq

/-- One row of `all_employment_data`. -/
structure EmpRecord where
  year : ℤ
  city : String
  state : String
  county : String
  unemployment_rate : Option ℚ
  employed : Option ℚ
deriving Repr, DecidableEq

/-- `f"{area_info['city']}, {area_info['state']} ({area_info['county']})"`. -/
def locationKey (a : TargetArea) : String :=
  a.city ++ ", " ++ a.state ++ " (" ++ a.county ++ ")"

/-- The `bls_area_codes` dict: location key to concatenated state+county
FIPS, built over the valid areas in order. -/
def blsAreaCodes (areas : List TargetArea) : List (String × String) :=
  (areas.filter validArea).foldl
    (fun m a => upsert (locationKey a) (a.fips_state ++ a.fips_county) m) []

/-- The per-year series construction: for each location, the unemployment
rate series (`...03`) and the employment level series (`...05`), paired
with their `series_to_location` entries. -/
def seriesPairs (codes : List (String × String)) : List (String × (String × String)) :=
  codes.flatMap fun lc =>
    [("LAUCN" ++ lc.2 ++ "0000000003", (lc.1, "unemployment_rate")),
     ("LAUCN" ++ lc.2 ++ "0000000005", (lc.1, "employed"))]

/-- Fuel-driven batching worker. -/
def chunksGo {α : Type} (n : Nat) : Nat → List α → List (List α)
  | 0, l => if l.isEmpty then [] else [l]
  | _ + 1, [] => []
  | fuel + 1, c :: rest => (c :: rest).take n :: chunksGo n fuel ((c :: rest).drop n)

/-- `series_ids[i:i + batch_size]` batching: consecutive chunks of `n`. -/
def chunksOf {α : Type} (n : Nat) (l : List α) : List (List α) :=
  chunksGo n l.length l

/-- Python `s.rstrip(c)`. -/
def pyRStrip (s : String) (c : Char) : String :=
  String.mk (s.toList.reverse.dropWhile (· == c)).reverse

/-- Recover `(city, state, county)` from a location key:
`parts = location_key.split(' (')`, `city_state = parts[0].split(', ')`,
`county = parts[1].rstrip(')')`. Out-of-range indices (impossible for the
keys this program builds) default to the empty string. -/
def parseLocationKey (loc : String) : String × String × String :=
  let parts := pySplitOn loc " ("
  let cityState := pySplitOn (parts.headD "") ", "
  (cityState.headD "", (cityState.drop 1).headD "",
    pyRStrip ((parts.drop 1).headD "") ')')

/-- Processing of one response series into `year_employment_data`: series
not in `series_to_location` or with empty data are ignored; otherwise
`data[0]` is stored under the series' location and data type. -/
def procSeries (mapping : List (String × (String × String)))
    (yed : List (String × (Option ℚ × Option ℚ))) (sd : SeriesData) :
    List (String × (Option ℚ × Option ℚ)) :=
  match lookupKey mapping sd.seriesID with
  | none => yed
  | some ld =>
    match sd.data with
    | [] => yed
    | v :: _ =>
      let cur := (lookupKey yed ld.1).getD (none, none)
      if ld.2 == "unemployment_rate" then upsert ld.1 (some v, cur.2) yed
      else if ld.2 == "employed" then upsert ld.1 (cur.1, some v) yed
      else yed

/-- The records appended for one year: per batch, a failed request (or a
non-`REQUEST_SUCCEEDED` status) appends nothing; a successful one appends
one record per location present in the parsed response. -/
def blsYearRecords (y : ℤ) (codes : List (String × String))
    (respond : ℤ → List String → BlsBatchResult) : List EmpRecord :=
  let pairs := seriesPairs codes
  let mapping := pairs.foldl (fun m p => upsert p.1 p.2 m) []
  (chunksOf 50 (pairs.map (·.1))).flatMap fun batch =>
    match respond y batch with
    | .failure _ => []
    | .success sds =>
      (sds.foldl (procSeries mapping) []).map fun ld =>
        let t := parseLocationKey ld.1
        ⟨y, t.1, t.2.1, t.2.2, ld.2.1, ld.2.2⟩

/-- The record-collection part of `get_bls_data`: empty when no area has a
valid FIPS, otherwise the per-year records for every year of the range. -/
def get_bls_records (s e : ℤ) (areas : List TargetArea)
    (respond : ℤ → List String → BlsBatchResult) : List EmpRecord :=
  let codes := blsAreaCodes areas
  if codes.isEmpty then []
  else (yearRange s e).flatMap fun y => blsYearRecords y codes respond

theorem blsYearRecords_year (y : ℤ) (codes : List (String × String))
    (respond : ℤ → List String → BlsBatchResult) (r : EmpRecord)
    (h : r ∈ blsYearRecords y codes respond) : r.year = y := by
  unfold blsYearRecords at h
  simp only [List.mem_flatMap] at h
  obtain ⟨batch, _, hr⟩ := h
  cases hresp : respond y batch with
  | failure m => rw [hresp] at hr; simp at hr
  | success sds =>
    rw [hresp] at hr
    simp only [List.mem_map] at hr
    obtain ⟨ld, _, hld⟩ := hr
    rw [← hld]

theorem flatMap_eq_single {α : Type} (ys : List ℤ) (g : ℤ → List α) (y : ℤ) (w : α)
    (hn : ys.Nodup) (hy : y ∈ ys) (hgy : g y = [w])
    (hother : ∀ y' ∈ ys, y' ≠ y → g y' = []) : ys.flatMap g = [w] := by
  induction ys with
  | nil => simp at hy
  | cons z zs ih =>
    rw [List.nodup_cons] at hn
    rcases List.mem_cons.mp hy with h | h
    · subst h
      have hrest : zs.flatMap g = [] := by
        rw [List.flatMap_eq_nil_iff]
        intro y' hy'
        exact hother y' (by simp [hy']) (fun hc => hn.1 (hc ▸ hy'))
      simp [List.flatMap_cons, hgy, hrest]
    · have hz : g z = [] := hother z (by simp) (fun hc => hn.1 (hc ▸ h))
      simp [List.flatMap_cons, hz, ih hn.2 h (fun y' hy' hne => hother y' (by simp [hy']) hne)]

theorem yearRange_nodup (s e : ℤ) : (yearRange s e).Nodup := by
  unfold yearRange
  refine List.Nodup.map ?_ (List.nodup_range _)
  intro i j hij
  have h : s + (i : ℤ) = s + (j : ℤ) := hij
  omega

theorem censusYears_nodup (s e : ℤ) : (censusYears s e).Nodup :=
  List.Nodup.filter _ (yearRange_nodup s e)

theorem mem_censusYears (s e y : ℤ) :
    y ∈ censusYears s e ↔ y ∈ yearRange s e ∧ 2009 ≤ y := by
  simp [censusYears, List.mem_filter]

theorem censusRec_year (fetch : ℤ → TargetArea → Option (ℚ × ℚ)) (y : ℤ)
    (a : TargetArea) : (censusRec fetch y a).year = y := by
  unfold censusRec
  cases fetch y a <;> rfl

/-- A BLS batch outcome standing for an exception or a non-success status. -/
def isFailureB : BlsBatchResult → Bool
  | .failure _ => true
  | .success _ => false

theorem blsYearRecords_all_failed (y : ℤ) (codes : List (String × String))
    (respond : ℤ → List String → BlsBatchResult)
    (h : ∀ batch, isFailureB (respond y batch) = true) :
    blsYearRecords y codes respond = [] := by
  unfold blsYearRecords
  rw [List.flatMap_eq_nil_iff]
  intro batch _
  cases hresp : respond y batch with
  | failure m => rfl
  | success sds =>
    have := h batch
    rw [hresp] at this
    simp [isFailureB] at this

/-- C2, counterexample: for a target area with valid FIPS `12-086` and the
single requested year 2020, a failed BLS batch request leaves the BLS
output with NO record at all for that (area, year) pair — it is silently
absent — whereas the census fetcher in the same situation emits exactly one
null-valued placeholder record. -/
theorem C2_counterexample :
    validArea ⟨"Miami", "FL", "Miami-Dade County", "12", "086"⟩ = true ∧
    yearRange 2020 2020 = [2020] ∧
    get_bls_records 2020 2020 [⟨"Miami", "FL", "Miami-Dade County", "12", "086"⟩]
        (fun _ _ => .failure "HTTP 500") = [] ∧
    get_census_pop_records 2020 2020 [⟨"Miami", "FL", "Miami-Dade County", "12", "086"⟩]
        (fun _ _ => none) = [⟨2020, "Miami", "FL", "Miami-Dade County", none⟩] := by
  refine ⟨rfl, rfl, rfl, rfl⟩

/-- C2 (amended): the census fetcher keeps the invariant for the years it
requests — for every target area with a resolved county FIPS and every
requested year from 2009 on, its output holds exactly one record for that
(area, year) pair, null-valued when the fetch failed — and it emits no
record for requested years before 2009; the BLS fetcher does NOT keep the
invariant: a year all of whose batch requests fail contributes no records
at all, so its (area, year) pairs are silently absent. -/
theorem C2_record_per_pair :
    (∀ (s e : ℤ) (areas : List TargetArea) (fetch : ℤ → TargetArea → Option (ℚ × ℚ))
        (a : TargetArea) (y : ℤ),
        a ∈ areas.filter validArea →
        ((areas.filter validArea).map tripleOf).Nodup →
        y ∈ yearRange s e → 2009 ≤ y →
        (get_census_pop_records s e areas fetch).filter (pairMatch a y) =
          [⟨y, a.city, a.state, a.county, (fetch y a).map Prod.fst⟩]) ∧
    (∀ (s e : ℤ) (areas : List TargetArea) (fetch : ℤ → TargetArea → Option (ℚ × ℚ))
        (r : PopRecord), r ∈ get_census_pop_records s e areas fetch → 2009 ≤ r.year) ∧
    (∀ (s e : ℤ) (areas : List TargetArea)
        (respond : ℤ → List String → BlsBatchResult) (y : ℤ),
        (∀ batch, isFailureB (respond y batch) = true) →
        ∀ r ∈ get_bls_records s e areas respond, r.year ≠ y) := by
  refine ⟨?_, ?_, ?_⟩
  · intro s e areas fetch a y hmem hnodup hy h2009
    unfold get_census_pop_records
    rw [List.filter_flatMap]
    rw [← censusRec_population fetch y a]
    apply flatMap_eq_single _ _ y _ (censusYears_nodup s e)
      ((mem_censusYears s e y).mpr ⟨hy, h2009⟩)
    · exact filter_pairMatch_map fetch y a _ hmem hnodup
    · intro y' _ hne
      rw [List.filter_eq_nil_iff]
      intro r hr
      obtain ⟨x, _, hxr⟩ := List.mem_map.mp hr
      rw [← hxr]
      intro hmatch
      exact hne ((pairMatch_censusRec_true a x y y' fetch).mp hmatch).2
  · intro s e areas fetch r hr
    unfold get_census_pop_records at hr
    obtain ⟨y, hy, hry⟩ := List.mem_flatMap.mp hr
    obtain ⟨x, _, hxr⟩ := List.mem_map.mp hry
    have := ((mem_censusYears s e y).mp hy).2
    rw [← hxr, censusRec_year]
    exact this
  · intro s e areas respond y hfail r hr hyear
    unfold get_bls_records at hr
    by_cases hempty : (blsAreaCodes areas).isEmpty
    · simp [hempty] at hr
    · simp only [hempty, if_neg, Bool.false_eq_true, not_false_eq_true] at hr
      obtain ⟨y', _, hry'⟩ := List.mem_flatMap.mp hr
      have hy' := blsYearRecords_year y' (blsAreaCodes areas) respond r hry'
      rw [hy'] at hyear
      subst hyear
      rw [blsYearRecords_all_failed y' (blsAreaCodes areas) respond hfail] at hry'
      simp at hry'

/-- Witness for `C2_record_per_pair` at a concrete area, year range, and
fetch/respond outcomes. -/
theorem C2_record_per_pair_witness :
    (get_census_pop_records 2015 2016 [⟨"Miami", "FL", "Miami-Dade County", "12", "086"⟩]
        (fun y _ => if y == 2016 then some (5, 30) else none)).filter
      (pairMatch ⟨"Miami", "FL", "Miami-Dade County", "12", "086"⟩ 2016) =
      [⟨2016, "Miami", "FL", "Miami-Dade County", some 5⟩] ∧
    (2009 : ℤ) ≤ 2015 :=
  ⟨C2_record_per_pair.1 2015 2016 [⟨"Miami", "FL", "Miami-Dade County", "12", "086"⟩]
      (fun y _ => if y == 2016 then some (5, 30) else none)
      ⟨"Miami", "FL", "Miami-Dade County", "12", "086"⟩ 2016
      (by decide) (by decide) (by decide) (by decide),
   C2_record_per_pair.2.1 2015 2016 [⟨"Miami", "FL", "Miami-Dade County", "12", "086"⟩]
      (fun y _ => if y == 2016 then some (5, 30) else none)
      ⟨2015, "Miami", "FL", "Miami-Dade County", none⟩ (by decide)⟩

/-! ## Trend analysis (`census_data.py` lines 120-145, `bls_data.py`
lines 149-197)

`location_data.sort_values('Year')` sorts a location's records by year
(modelled as a stable ascending insertion sort; the per-location record
lists here have pairwise-distinct years anyway), `dropna` removes
null-valued rows, and `iloc[0]` / `iloc[-1]` take the first and last of
what remains. The float CAGR formula is modelled over `ℝ` with the real
power function. -/

/-- Insert into an ascending-sorted list, before the first element of
equal or larger key (so that equal keys keep their original order). -/
def insertAsc {α β : Type} [LinearOrder β] (key : α → β) (x : α) : List α → List α
  | [] => [x]
  | y :: ys => if key x ≤ key y then x :: y :: ys else y :: insertAsc key x ys

/-- Stable ascending insertion sort by key. -/
def sortAsc {α β : Type} [LinearOrder β] (key : α → β) : List α → List α
  | [] => []
  | x :: xs => insertAsc key x (sortAsc key xs)

/-- `location_data.sort_values('Year')` followed by
`dropna(subset=['Population'])`. -/
def popCleanSorted (recs : List PopRecord) : List PopRecord :=
  (sortAsc (fun r => r.year) recs).filter fun r => r.population.isSome

/-- The per-location population CAGR of `get_census_data`: defined only
when at least two non-null observations remain, the first and last have
distinct years, and the starting population is positive; expressed as a
percentage. -/
noncomputable def popLocationCagr (recs : List PopRecord) : Option ℝ :=
  if 2 ≤ (popCleanSorted recs).length then
    match (popCleanSorted recs).head?, (popCleanSorted recs).getLast? with
    | some s0, some e0 =>
      if 0 < e0.year - s0.year ∧ 0 < s0.population.getD 0 then
        some (((((e0.population.getD 0 : ℚ) : ℝ) / ((s0.population.getD 0 : ℚ) : ℝ)) ^
          ((1 : ℝ) / ((e0.year - s0.year : ℤ) : ℝ)) - 1) * 100)
      else none
    | _, _ => none
  else none

/-- C7: per location, the census trend computation sorts records by year,
discards null observations, takes the first and last remaining
observations, and computes `((end/start)^(1/(y1-y0)) - 1) * 100` exactly
when `start > 0` and `y1 > y0`, skipping the location otherwise; for
start 100, end 200 over 2 years the result is `(√2 - 1) * 100`, which
lies strictly between 41.42 and 41.43. -/
theorem C7_population_cagr :
    (∀ (recs : List PopRecord) (s0 e0 : PopRecord),
        (popCleanSorted recs).head? = some s0 →
        (popCleanSorted recs).getLast? = some e0 →
        2 ≤ (popCleanSorted recs).length →
        (0 < e0.year - s0.year → 0 < s0.population.getD 0 →
          popLocationCagr recs =
            some (((((e0.population.getD 0 : ℚ) : ℝ) / ((s0.population.getD 0 : ℚ) : ℝ)) ^
              ((1 : ℝ) / ((e0.year - s0.year : ℤ) : ℝ)) - 1) * 100)) ∧
        (e0.year - s0.year ≤ 0 ∨ s0.population.getD 0 ≤ 0 →
          popLocationCagr recs = none)) ∧
    (popLocationCagr
        [⟨2015, "Orlando", "FL", "Orange County", some 100⟩,
         ⟨2017, "Orlando", "FL", "Orange County", some 200⟩] =
      some ((Real.sqrt 2 - 1) * 100) ∧
     (41.42 : ℝ) < (Real.sqrt 2 - 1) * 100 ∧ (Real.sqrt 2 - 1) * 100 < 41.43) := by
  have main : ∀ (recs : List PopRecord) (s0 e0 : PopRecord),
      (popCleanSorted recs).head? = some s0 →
      (popCleanSorted recs).getLast? = some e0 →
      2 ≤ (popCleanSorted recs).length →
      (0 < e0.year - s0.year → 0 < s0.population.getD 0 →
        popLocationCagr recs =
          some (((((e0.population.getD 0 : ℚ) : ℝ) / ((s0.population.getD 0 : ℚ) : ℝ)) ^
            ((1 : ℝ) / ((e0.year - s0.year : ℤ) : ℝ)) - 1) * 100)) ∧
      (e0.year - s0.year ≤ 0 ∨ s0.population.getD 0 ≤ 0 →
        popLocationCagr recs = none) := by
    intro recs s0 e0 hh hl hlen
    constructor
    · intro hyd hsp
      unfold popLocationCagr
      rw [if_pos hlen, hh, hl]
      show (if 0 < e0.year - s0.year ∧ 0 < s0.population.getD 0 then
          some (((((e0.population.getD 0 : ℚ) : ℝ) / ((s0.population.getD 0 : ℚ) : ℝ)) ^
            ((1 : ℝ) / ((e0.year - s0.year : ℤ) : ℝ)) - 1) * 100)
        else none) = _
      rw [if_pos ⟨hyd, hsp⟩]
    · intro hneg
      unfold popLocationCagr
      rw [if_pos hlen, hh, hl]
      show (if 0 < e0.year - s0.year ∧ 0 < s0.population.getD 0 then
          some (((((e0.population.getD 0 : ℚ) : ℝ) / ((s0.population.getD 0 : ℚ) : ℝ)) ^
            ((1 : ℝ) / ((e0.year - s0.year : ℤ) : ℝ)) - 1) * 100)
        else none) = none
      rw [if_neg]
      rintro ⟨h1, h2⟩
      rcases hneg with h | h
      · omega
      · exact absurd h2 (not_lt.mpr h)
  refine ⟨main, ?_, ?_, ?_⟩
  · have := (main
        [⟨2015, "Orlando", "FL", "Orange County", some 100⟩,
         ⟨2017, "Orlando", "FL", "Orange County", some 200⟩]
        ⟨2015, "Orlando", "FL", "Orange County", some 100⟩
        ⟨2017, "Orlando", "FL", "Orange County", some 200⟩
        rfl rfl (by decide)).1 (by decide) (by norm_num)
    rw [this]
    congr 1
    have hb : (((200 : ℚ) : ℝ) / ((100 : ℚ) : ℝ)) = 2 := by norm_num
    have he : (1 : ℝ) / (((2017 - 2015 : ℤ) : ℤ) : ℝ) = 1 / 2 := by norm_num
    show ((((200 : ℚ) : ℝ) / ((100 : ℚ) : ℝ)) ^
        ((1 : ℝ) / (((2017 - 2015 : ℤ) : ℤ) : ℝ)) - 1) * 100 = (Real.sqrt 2 - 1) * 100
    rw [hb, he, ← Real.sqrt_eq_rpow]
  · have h1 : (1.4142 : ℝ) < Real.sqrt 2 :=
      (Real.lt_sqrt (by norm_num)).mpr (by norm_num)
    linarith
  · have h2 : Real.sqrt 2 < 1.4143 :=
      (Real.sqrt_lt' (by norm_num)).mpr (by norm_num)
    linarith

/-- Witness for `C7_population_cagr` at a concrete record list. -/
theorem C7_population_cagr_witness :
    popLocationCagr
        [⟨2015, "Orlando", "FL", "Orange County", some 100⟩,
         ⟨2017, "Orlando", "FL", "Orange County", some 200⟩] =
      some (((((200 : ℚ) : ℝ) / ((100 : ℚ) : ℝ)) ^
        ((1 : ℝ) / (((2017 - 2015 : ℤ) : ℤ) : ℝ)) - 1) * 100) :=
  (C7_population_cagr.1
      [⟨2015, "Orlando", "FL", "Orange County", some 100⟩,
       ⟨2017, "Orlando", "FL", "Orange County", some 200⟩]
      ⟨2015, "Orlando", "FL", "Orange County", some 100⟩
      ⟨2017, "Orlando", "FL", "Orange County", some 200⟩
      rfl rfl (by decide)).1 (by decide) (by norm_num)

/-- The per-location analysis result of the employment trend loop. -/
structure EmpTrendInfo where
  employment_cagr : ℝ
  composite_score : ℝ

/-- `composite_score = employment_cagr - (unemployment_change * 2)`
(`bls_data.py` line 172). -/
def compositeScore (cagr change : ℝ) : ℝ :=
  cagr - change * 2

/-- `location_data.sort_values('Year')` followed by
`dropna(subset=['employed', 'unemployment_rate'])`. -/
def empCleanSorted (recs : List EmpRecord) : List EmpRecord :=
  (sortAsc (fun r => r.year) recs).filter fun r =>
    r.employed.isSome && r.unemployment_rate.isSome

/-- The per-location employment trend of `get_bls_data`: employment CAGR
(as a percentage) and the composite score, defined only when at least two
fully-observed records remain, with distinct start and end years and a
positive starting employment. -/
noncomputable def empLocationTrend (recs : List EmpRecord) : Option EmpTrendInfo :=
  if 2 ≤ (empCleanSorted recs).length then
    match (empCleanSorted recs).head?, (empCleanSorted recs).getLast? with
    | some s0, some e0 =>
      if 0 < e0.year - s0.year ∧ 0 < s0.employed.getD 0 then
        some ⟨((((e0.employed.getD 0 : ℚ) : ℝ) / ((s0.employed.getD 0 : ℚ) : ℝ)) ^
            ((1 : ℝ) / ((e0.year - s0.year : ℤ) : ℝ)) - 1) * 100,
          compositeScore
            (((((e0.employed.getD 0 : ℚ) : ℝ) / ((s0.employed.getD 0 : ℚ) : ℝ)) ^
              ((1 : ℝ) / ((e0.year - s0.year : ℤ) : ℝ)) - 1) * 100)
            (((e0.unemployment_rate.getD 0 : ℚ) : ℝ) -
              ((s0.unemployment_rate.getD 0 : ℚ) : ℝ))⟩
      else none
    | _, _ => none
  else none

/-- C6: for every location with at least two fully-observed records,
positive starting employment and distinct start/end years, the composite
score equals the employment CAGR minus twice (end unemployment rate minus
start unemployment rate); in particular a CAGR of 5.0 with an unemployment
change of -1.0 yields a composite of 7.0. -/
theorem C6_composite_score :
    (∀ (recs : List EmpRecord) (s0 e0 : EmpRecord),
        (empCleanSorted recs).head? = some s0 →
        (empCleanSorted recs).getLast? = some e0 →
        2 ≤ (empCleanSorted recs).length →
        0 < e0.year - s0.year → 0 < s0.employed.getD 0 →
        ∃ t, empLocationTrend recs = some t ∧
          t.composite_score = t.employment_cagr -
            2 * (((e0.unemployment_rate.getD 0 : ℚ) : ℝ) -
              ((s0.unemployment_rate.getD 0 : ℚ) : ℝ))) ∧
    compositeScore 5 (-1) = 7 := by
  constructor
  · intro recs s0 e0 hh hl hlen hyd hse
    unfold empLocationTrend
    rw [if_pos hlen, hh, hl]
    show ∃ t, (if 0 < e0.year - s0.year ∧ 0 < s0.employed.getD 0 then
        some (⟨((((e0.employed.getD 0 : ℚ) : ℝ) / ((s0.employed.getD 0 : ℚ) : ℝ)) ^
            ((1 : ℝ) / ((e0.year - s0.year : ℤ) : ℝ)) - 1) * 100,
          compositeScore
            (((((e0.employed.getD 0 : ℚ) : ℝ) / ((s0.employed.getD 0 : ℚ) : ℝ)) ^
              ((1 : ℝ) / ((e0.year - s0.year : ℤ) : ℝ)) - 1) * 100)
            (((e0.unemployment_rate.getD 0 : ℚ) : ℝ) -
              ((s0.unemployment_rate.getD 0 : ℚ) : ℝ))⟩ : EmpTrendInfo)
      else none) = some t ∧
        t.composite_score = t.employment_cagr -
          2 * (((e0.unemployment_rate.getD 0 : ℚ) : ℝ) -
            ((s0.unemployment_rate.getD 0 : ℚ) : ℝ))
    rw [if_pos ⟨hyd, hse⟩]
    refine ⟨_, rfl, ?_⟩
    show compositeScore _ _ = _
    unfold compositeScore
    ring
  · unfold compositeScore
    norm_num

/-- Witness for `C6_composite_score` at a concrete record list (flat
employment 100 over one year, unemployment rate improving from 5 to 4). -/
theorem C6_composite_score_witness :
    (∃ t, empLocationTrend
        [⟨2020, "Miami", "FL", "Miami-Dade County", some 5, some 100⟩,
         ⟨2021, "Miami", "FL", "Miami-Dade County", some 4, some 100⟩] = some t ∧
      t.composite_score = t.employment_cagr -
        2 * (((4 : ℚ) : ℝ) - ((5 : ℚ) : ℝ))) :=
  (C6_composite_score.1
      [⟨2020, "Miami", "FL", "Miami-Dade County", some 5, some 100⟩,
       ⟨2021, "Miami", "FL", "Miami-Dade County", some 4, some 100⟩]
      ⟨2020, "Miami", "FL", "Miami-Dade County", some 5, some 100⟩
      ⟨2021, "Miami", "FL", "Miami-Dade County", some 4, some 100⟩
      rfl rfl (by decide) (by decide) (by norm_num))

/-! ## Strongest-market selection (`census_data.py` lines 155-168,
`bls_data.py` lines 201-212)

`df.sort_values(score, ascending=False)` goes through pandas' `nargsort`,
which for a descending sort reverses the values and their indices BEFORE
the ascending argsort and reverses the resulting indexer AFTER, so that
with a stable underlying argsort (numpy's default quicksort degenerates to
a stable insertion sort on the small frames this loop builds) tied rows
keep their original order: the descending frame is stable and `iloc[0]`
is the FIRST-processed row of maximal score. Float scores are modelled as
`ℚ` for the selection step. -/

/-- `sort_values(key, ascending=False)` on the analysis frame: reverse the
rows, sort them ascending with a stable sort, and reverse the result —
pandas' `nargsort` double reversal, which keeps tied rows in their
original order. -/
def pandasSortDesc {α β : Type} [LinearOrder β] (key : α → β) (l : List α) : List α :=
  (sortAsc key l.reverse).reverse

/-- `sorted_frame.iloc[0]`: the reported strongest market. -/
def strongestMarket {α β : Type} [LinearOrder β] (key : α → β) (l : List α) : Option α :=
  (pandasSortDesc key l).head?

/-- The maximum of a list by key, preferring the latest occurrence among
ties; applied to the REVERSED analysis frame it yields the first-processed
maximal row, the one `strongestMarket` reports. -/
def lastArgmax {α β : Type} [LinearOrder β] (key : α → β) : List α → Option α
  | [] => none
  | x :: xs =>
    match lastArgmax key xs with
    | none => some x
    | some m => if key m < key x then some x else some m

theorem insertAsc_ne_nil {α β : Type} [LinearOrder β] (key : α → β) (x : α)
    (s : List α) : insertAsc key x s ≠ [] := by
  cases s with
  | nil => simp [insertAsc]
  | cons y ys =>
    unfold insertAsc
    split <;> simp

theorem mem_insertAsc {α β : Type} [LinearOrder β] (key : α → β) (a x : α)
    (s : List α) : a ∈ insertAsc key x s ↔ a = x ∨ a ∈ s := by
  induction s with
  | nil => simp [insertAsc]
  | cons y ys ih =>
    unfold insertAsc
    split
    · simp
    · simp only [List.mem_cons, ih]
      tauto

theorem pairwise_insertAsc {α β : Type} [LinearOrder β] (key : α → β) (x : α)
    (s : List α) (hs : s.Pairwise (fun a b => key a ≤ key b)) :
    (insertAsc key x s).Pairwise (fun a b => key a ≤ key b) := by
  induction s with
  | nil => simp [insertAsc]
  | cons y ys ih =>
    rw [List.pairwise_cons] at hs
    obtain ⟨hy, hys⟩ := hs
    unfold insertAsc
    split
    · rename_i h
      rw [List.pairwise_cons]
      refine ⟨?_, List.pairwise_cons.mpr ⟨hy, hys⟩⟩
      intro z hz
      rcases List.mem_cons.mp hz with rfl | hz'
      · exact h
      · exact le_trans h (hy z hz')
    · rename_i h
      rw [List.pairwise_cons]
      refine ⟨?_, ih hys⟩
      intro z hz
      rcases (mem_insertAsc key z x ys).mp hz with rfl | hz'
      · exact le_of_lt (not_le.mp h)
      · exact hy z hz'

theorem pairwise_sortAsc {α β : Type} [LinearOrder β] (key : α → β) (l : List α) :
    (sortAsc key l).Pairwise (fun a b => key a ≤ key b) := by
  induction l with
  | nil => simp [sortAsc]
  | cons x xs ih => exact pairwise_insertAsc key x _ ih

theorem getLast?_le_of_pairwise {α β : Type} [LinearOrder β] (key : α → β)
    (y m : α) (ys : List α) (hs : (y :: ys).Pairwise (fun a b => key a ≤ key b))
    (hm : (y :: ys).getLast? = some m) : key y ≤ key m := by
  have hmem := List.mem_of_getLast?_eq_some hm
  rw [List.pairwise_cons] at hs
  rcases List.mem_cons.mp hmem with rfl | h
  · exact le_refl _
  · exact hs.1 m h

theorem getLast?_insertAsc {α β : Type} [LinearOrder β] (key : α → β) (x : α)
    (s : List α) (hs : s.Pairwise (fun a b => key a ≤ key b)) :
    (insertAsc key x s).getLast? =
      match s.getLast? with
      | none => some x
      | some m => if key m < key x then some x else some m := by
  induction s with
  | nil => rfl
  | cons y ys ih =>
    unfold insertAsc
    split
    · rename_i h
      obtain ⟨m, hm⟩ := Option.isSome_iff_exists.mp (List.getLast?_isSome.mpr
        (List.cons_ne_nil y ys))
      rw [List.getLast?_cons_cons, hm]
      have hle : key x ≤ key m := le_trans h (getLast?_le_of_pairwise key y m ys hs hm)
      show some m = if key m < key x then some x else some m
      rw [if_neg (not_lt.mpr hle)]
    · rename_i h
      rw [List.pairwise_cons] at hs
      cases ys with
      | nil =>
        show (insertAsc key x []).getLast? = _
        rw [show insertAsc key x [] = [x] from rfl]
        show some x = if key y < key x then some x else some y
        rw [if_pos (not_le.mp h)]
      | cons z zs =>
        have hne := insertAsc_ne_nil key x (z :: zs)
        obtain ⟨hd, tl, heq⟩ := List.exists_cons_of_ne_nil hne
        rw [heq, List.getLast?_cons_cons, ← heq, ih hs.2, List.getLast?_cons_cons]

theorem getLast?_sortAsc {α β : Type} [LinearOrder β] (key : α → β) (l : List α) :
    (sortAsc key l).getLast? = lastArgmax key l := by
  induction l with
  | nil => rfl
  | cons x xs ih =>
    show (insertAsc key x (sortAsc key xs)).getLast? = _
    rw [getLast?_insertAsc key x _ (pairwise_sortAsc key xs), ih]
    rfl

theorem strongestMarket_eq_lastArgmax {α β : Type} [LinearOrder β] (key : α → β)
    (l : List α) : strongestMarket key l = lastArgmax key l.reverse := by
  unfold strongestMarket pandasSortDesc
  rw [List.head?_reverse]
  exact getLast?_sortAsc key l.reverse

theorem lastArgmax_isSome {α β : Type} [LinearOrder β] (key : α → β)
    (l : List α) (h : l ≠ []) : ∃ m, lastArgmax key l = some m := by
  cases l with
  | nil => exact absurd rfl h
  | cons x xs =>
    unfold lastArgmax
    cases lastArgmax key xs with
    | none => exact ⟨x, rfl⟩
    | some m =>
      by_cases hlt : key m < key x
      · exact ⟨x, by simp [hlt]⟩
      · exact ⟨m, by simp [hlt]⟩

theorem lastArgmax_le {α β : Type} [LinearOrder β] (key : α → β) (l : List α)
    (m : α) (h : lastArgmax key l = some m) : m ∈ l ∧ ∀ a ∈ l, key a ≤ key m := by
  induction l generalizing m with
  | nil => simp [lastArgmax] at h
  | cons x xs ih =>
    unfold lastArgmax at h
    cases h' : lastArgmax key xs with
    | none =>
      rw [h'] at h
      have hx : m = x := by
        injection h with h
        exact h.symm
      subst hx
      have hxs : xs = [] := by
        cases xs with
        | nil => rfl
        | cons z zs =>
          exfalso
          obtain ⟨w, hw⟩ := lastArgmax_isSome key (z :: zs) (List.cons_ne_nil z zs)
          rw [hw] at h'
          cases h'
      subst hxs
      exact ⟨by simp, by simp⟩
    | some m' =>
      rw [h'] at h
      have h2 : (if key m' < key x then some x else some m') = some m := h
      obtain ⟨hm'mem, hm'le⟩ := ih m' h'
      by_cases hlt : key m' < key x
      · rw [if_pos hlt] at h2
        have hx : m = x := by
          injection h2 with h2
          exact h2.symm
        subst hx
        refine ⟨by simp, ?_⟩
        intro a ha
        rcases List.mem_cons.mp ha with rfl | ha'
        · exact le_refl _
        · exact le_trans (hm'le a ha') (le_of_lt hlt)
      · rw [if_neg hlt] at h2
        have hm : m = m' := by
          injection h2 with h2
          exact h2.symm
        subst hm
        refine ⟨by simp [hm'mem], ?_⟩
        intro a ha
        rcases List.mem_cons.mp ha with rfl | ha'
        · exact not_lt.mp hlt
        · exact hm'le a ha'

theorem lastArgmax_last {α β : Type} [LinearOrder β] (key : α → β) (l : List α)
    (m : α) (h : lastArgmax key l = some m) :
    ∃ l₁ l₂, l = l₁ ++ m :: l₂ ∧ ∀ a ∈ l₂, key a < key m := by
  induction l generalizing m with
  | nil => simp [lastArgmax] at h
  | cons x xs ih =>
    unfold lastArgmax at h
    cases h' : lastArgmax key xs with
    | none =>
      rw [h'] at h
      have hx : m = x := by
        injection h with h
        exact h.symm
      subst hx
      have hxs : xs = [] := by
        cases xs with
        | nil => rfl
        | cons z zs =>
          exfalso
          obtain ⟨w, hw⟩ := lastArgmax_isSome key (z :: zs) (List.cons_ne_nil z zs)
          rw [hw] at h'
          cases h'
      subst hxs
      exact ⟨[], [], rfl, by simp⟩
    | some m' =>
      rw [h'] at h
      have h2 : (if key m' < key x then some x else some m') = some m := h
      by_cases hlt : key m' < key x
      · rw [if_pos hlt] at h2
        have hx : m = x := by
          injection h2 with h2
          exact h2.symm
        subst hx
        refine ⟨[], xs, rfl, ?_⟩
        intro a ha
        exact lt_of_le_of_lt ((lastArgmax_le key xs m' h').2 a ha) hlt
      · rw [if_neg hlt] at h2
        have hm : m = m' := by
          injection h2 with h2
          exact h2.symm
        subst hm
        obtain ⟨l₁, l₂, heq, hl₂⟩ := ih m h'
        exact ⟨x :: l₁, l₂, by rw [heq]; rfl, hl₂⟩

/-- One row of the `growth_analysis` frame of `get_census_data` (the
fields the selection uses; the float CAGR is a rational here). Rows are
appended in groupby order, i.e. sorted by (City, State, County). -/
structure GrowthRow where
  city : String
  state : String
  county : String
  cagr : ℚ
deriving Repr, DecidableEq

/-- One row of the `employment_analysis` frame of `get_bls_data`. -/
structure EmpScoreRow where
  city : String
  state : String
  county : String
  composite : ℚ
deriving Repr, DecidableEq

/-- `growth_df.sort_values('CAGR_Pct', ascending=False).iloc[0]`. -/
def strongestPopMarket (l : List GrowthRow) : Option GrowthRow :=
  strongestMarket (fun r => r.cagr) l

/-- `employment_analysis_df.sort_values('Composite_Score',
ascending=False).iloc[0]`. -/
def strongestEmpMarket (l : List EmpScoreRow) : Option EmpScoreRow :=
  strongestMarket (fun r => r.composite) l

theorem strongestMarket_spec {α β : Type} [LinearOrder β] (key : α → β)
    (l : List α) (m : α) (h : strongestMarket key l = some m) :
    m ∈ l ∧ (∀ a ∈ l, key a ≤ key m) ∧
      ∃ l₁ l₂, l = l₁ ++ m :: l₂ ∧ ∀ a ∈ l₁, key a < key m := by
  rw [strongestMarket_eq_lastArgmax] at h
  obtain ⟨hmem, hle⟩ := lastArgmax_le key l.reverse m h
  obtain ⟨r₁, r₂, heq, hr₂⟩ := lastArgmax_last key l.reverse m h
  refine ⟨List.mem_reverse.mp hmem, fun a ha => hle a (List.mem_reverse.mpr ha), ?_⟩
  refine ⟨r₂.reverse, r₁.reverse, ?_, fun a ha => hr₂ a (List.mem_reverse.mp ha)⟩
  have hl : l = (r₁ ++ m :: r₂).reverse := by
    rw [← heq, List.reverse_reverse]
  rw [hl]
  simp

theorem strongestMarket_isSome {α β : Type} [LinearOrder β] (key : α → β)
    (l : List α) (h : l ≠ []) : ∃ m, strongestMarket key l = some m := by
  rw [strongestMarket_eq_lastArgmax]
  exact lastArgmax_isSome key l.reverse (by simpa using h)

/-- C4: for every nonempty analysis frame exactly one location is reported
as the strongest market, its metric (CAGR for the census fetcher,
composite score for the employment fetcher) is maximal among all analyzed
locations, and when several locations share the maximal value the one
encountered FIRST in the stable processing order is reported: every
location before the reported one in the frame has a strictly smaller
metric. (pandas' `nargsort` reverses values before the argsort and the
indexer after, so the descending sort keeps tied rows in their original
order.) -/
theorem C4_strongest_market :
    (∀ l : List EmpScoreRow, l ≠ [] → ∃ r, strongestEmpMarket l = some r) ∧
    (∀ (l : List EmpScoreRow) (r : EmpScoreRow), strongestEmpMarket l = some r →
      r ∈ l ∧ (∀ a ∈ l, a.composite ≤ r.composite) ∧
      ∃ l₁ l₂, l = l₁ ++ r :: l₂ ∧ ∀ a ∈ l₁, a.composite < r.composite) ∧
    (∀ l : List GrowthRow, l ≠ [] → ∃ r, strongestPopMarket l = some r) ∧
    (∀ (l : List GrowthRow) (r : GrowthRow), strongestPopMarket l = some r →
      r ∈ l ∧ (∀ a ∈ l, a.cagr ≤ r.cagr) ∧
      ∃ l₁ l₂, l = l₁ ++ r :: l₂ ∧ ∀ a ∈ l₁, a.cagr < r.cagr) :=
  ⟨fun l hl => strongestMarket_isSome _ l hl,
   fun l r hr => strongestMarket_spec _ l r hr,
   fun l hl => strongestMarket_isSome _ l hl,
   fun l r hr => strongestMarket_spec _ l r hr⟩

/-- Witness for `C4_strongest_market` at a concrete analysis frame with a
tie on the maximal score: the first-processed tied location ("Aurora") is
the reported one. -/
theorem C4_strongest_market_witness :
    (∃ r, strongestEmpMarket
        [⟨"Aurora", "CO", "Arapahoe County", 5⟩,
         ⟨"Boulder", "CO", "Boulder County", 5⟩] = some r) ∧
    (⟨"Aurora", "CO", "Arapahoe County", 5⟩ : EmpScoreRow) ∈
        ([⟨"Aurora", "CO", "Arapahoe County", 5⟩,
          ⟨"Boulder", "CO", "Boulder County", 5⟩] : List EmpScoreRow) ∧
    (∀ a ∈ ([⟨"Aurora", "CO", "Arapahoe County", 5⟩,
          ⟨"Boulder", "CO", "Boulder County", 5⟩] : List EmpScoreRow),
        a.composite ≤ (⟨"Aurora", "CO", "Arapahoe County", 5⟩ : EmpScoreRow).composite) :=
  ⟨C4_strongest_market.1
      [⟨"Aurora", "CO", "Arapahoe County", 5⟩, ⟨"Boulder", "CO", "Boulder County", 5⟩]
      (by decide),
   (C4_strongest_market.2.1
      [⟨"Aurora", "CO", "Arapahoe County", 5⟩, ⟨"Boulder", "CO", "Boulder County", 5⟩]
      ⟨"Aurora", "CO", "Arapahoe County", 5⟩ rfl).1,
   (C4_strongest_market.2.1
      [⟨"Aurora", "CO", "Arapahoe County", 5⟩, ⟨"Boulder", "CO", "Boulder County", 5⟩]
      ⟨"Aurora", "CO", "Arapahoe County", 5⟩ rfl).2.1⟩

/-! ## `data_collection/crime_data.py`: `parse_crime_table`

The BeautifulSoup table is modelled structurally: the `thead` texts, the
`tbody` rows (each cell carrying its text and the text of its first `<b>`
tag, if any), and the cells of the first `tfoot` row when one exists. -/

/-- One `<td>` cell: the text of its first `<b>` child (if any) and its
own text. -/
structure HtmlCell where
  bold : Option String
  text : String
deriving Repr, DecidableEq

/-- The crime table as located in the page. -/
structure CrimeTable where
  thead : Option (List String)
  tbody : Option (List (List HtmlCell))
  tfoot : Option (List HtmlCell)
deriving Repr, DecidableEq

/-- One row of the parsed crime data: `{'City': ..., 'Crime_Type': ...}`
plus the year-keyed cells in insertion order. -/
structure CrimeRow where
  city : String
  crimeType : String
  cells : List (String × String)
deriving Repr, DecidableEq

/-- The parsed crime DataFrame: its column list and rows. -/
structure CrimeDF where
  cols : List String
  rows : List CrimeRow
deriving Repr, DecidableEq

/-- Digits (most significant first) to the number they denote. -/
def digitsToNat (ds : List Char) : ℕ :=
  ds.foldl (fun n c => n * 10 + (c.toNat - 48)) 0

/-- `re.match(r'([\d,]+)', text)` followed by comma removal and `int()`:
the leading run of digits and commas, commas removed; `0` when there is no
match or `int()` fails on an all-comma match. -/
def parseCount (s : String) : ℕ :=
  let lead := s.toList.takeWhile fun c => c.isDigit || c == ','
  if lead.isEmpty then 0
  else
    let ds := lead.filter fun c => c != ','
    if ds.isEmpty then 0 else digitsToNat ds

/-- `re.search(r'\(([^)]+)\)', text)`: the first parenthesized nonempty
run of non-`)` characters. -/
def findRateGo : List Char → Option (List Char)
  | [] => none
  | c :: rest =>
    if c == '(' then
      let content := rest.takeWhile fun x => x != ')'
      if (rest.drop content.length).head? == some ')' && !content.isEmpty then some content
      else findRateGo rest
    else findRateGo rest

/-- Reversed-digit comma grouping worker for `commafy`. -/
def groupThrees : List Char → List Char
  | d1 :: d2 :: d3 :: d4 :: rest => d1 :: d2 :: d3 :: ',' :: groupThrees (d4 :: rest)
  | l => l

/-- Python `f"{n:,}"` for a natural number. -/
def commafy (n : ℕ) : String :=
  String.mk (groupThrees (Nat.toDigits 10 n).reverse).reverse

/-- The re-rendering of one nonempty cell text:
`f"{raw_count:,} ({rate})"` when a rate suffix exists, else
`f"{raw_count:,}"`. -/
def formatCell (text : String) : String :=
  match findRateGo text.toList with
  | some rate => commafy (parseCount text) ++ " (" ++ String.mk rate ++ ")"
  | none => commafy (parseCount text)

/-- The year-keyed values of one body row: for each cell after the first,
with `i < len(headers)`, the formatted text (empty cells become `'0'`)
stored under `headers[i]`. -/
def buildCells (headers : List String) (cells : List HtmlCell) : List (String × String) :=
  ((List.enumFrom 1 cells).filter fun p => p.1 < headers.length).foldl
    (fun acc p =>
      let t := pyTrim p.2.text
      upsert (headers.getD p.1 "") (if t == "" then "0" else formatCell t) acc) []

/-- The year-keyed values of the footer row: the verbatim stripped text,
empty cells becoming `'Not Found'`. -/
def footerCells (headers : List String) (cells : List HtmlCell) : List (String × String) :=
  ((List.enumFrom 1 cells).filter fun p => p.1 < headers.length).foldl
    (fun acc p =>
      let t := pyTrim p.2.text
      upsert (headers.getD p.1 "") (if t == "" then "Not Found" else t) acc) []

/-- One body row of the table: skipped when it has fewer than two cells,
no bold label, or the synthetic `'City-Data.com crime index'` label. -/
def parseBodyRow (headers : List String) (city : String) (cells : List HtmlCell) :
    Option CrimeRow :=
  if cells.length < 2 then none
  else
    match (cells.headD ⟨none, ""⟩).bold with
    | none => none
    | some b =>
      let ct := pyTrim b
      if ct == "City-Data.com crime index" then none
      else some ⟨city, ct, buildCells headers (cells.drop 1)⟩

/-- The column list of `pd.DataFrame(crime_data)`: `City`, `Crime_Type`,
then the year keys in first-seen order. -/
def dfColumns (rows : List CrimeRow) : List String :=
  rows.foldl
    (fun acc r => r.cells.foldl
      (fun acc2 kv => if acc2.contains kv.1 then acc2 else acc2 ++ [kv.1]) acc)
    ["City", "Crime_Type"]

/-- `df = df[keep_cols]` with `fillna('Not Found')`: project each row to
the year columns, missing entries becoming `'Not Found'`. (The code fills
after deduplicating; the two steps commute because deduplication reads
only the City and Crime_Type fields, which projection preserves.) -/
def projectRow (yearCols : List String) (r : CrimeRow) : CrimeRow :=
  ⟨r.city, r.crimeType, yearCols.map fun y => (y, (lookupKey r.cells y).getD "Not Found")⟩

/-- The dedup step
`df[~((df.duplicated(['City','Crime_Type'], keep='last')) & (df['Crime_Type'] == 'Crime Index'))]`:
a row is removed iff its type is `'Crime Index'` and a LATER row has the
same (City, Crime_Type). -/
def dedupCI : List CrimeRow → List CrimeRow
  | [] => []
  | r :: rest =>
    if r.crimeType == "Crime Index" &&
        rest.any (fun s => s.city == r.city && s.crimeType == r.crimeType) then
      dedupCI rest
    else r :: dedupCI rest

/-- `parse_crime_table(crtable, city_name)`: `None` when the table lacks a
`thead` or `tbody`; otherwise the body rows, the footer-derived
`'Crime Index'` row (only when the footer exists, has two or more cells,
and no `'Crime Index'` row came from the body), projected to the digit
year columns and deduplicated. -/
def parse_crime_table (t : CrimeTable) (city : String) : Option CrimeDF :=
  match t.thead with
  | none => none
  | some ths =>
    let headers := ths.map pyTrim
    match t.tbody with
    | none => none
    | some brows =>
      let bodyRows := brows.filterMap (parseBodyRow headers city)
      let rows :=
        match t.tfoot with
        | none => bodyRows
        | some fcells =>
          if 2 ≤ fcells.length ∧
              ¬ (bodyRows.any fun d => d.crimeType == "Crime Index") then
            bodyRows ++ [⟨city, "Crime Index", footerCells headers (fcells.drop 1)⟩]
          else bodyRows
      if rows.isEmpty then some ⟨[], []⟩
      else
        let yearCols := (dfColumns rows).filter pyIsDigit
        some ⟨["City", "Crime_Type"] ++ yearCols,
          dedupCI (rows.map (projectRow yearCols))⟩

theorem dedupCI_filter_CI (rows : List CrimeRow) (c : String) :
    (dedupCI rows).filter (fun r => r.city == c && r.crimeType == "Crime Index") =
      ((rows.filter fun r =>
        r.city == c && r.crimeType == "Crime Index").getLast?).toList := by
  induction rows with
  | nil => rfl
  | cons r rest ih =>
    unfold dedupCI
    by_cases hdrop : (r.crimeType == "Crime Index" &&
        rest.any fun s => s.city == r.city && s.crimeType == r.crimeType) = true
    · rw [if_pos hdrop, ih, List.filter_cons]
      rw [Bool.and_eq_true] at hdrop
      by_cases hp : (r.city == c && r.crimeType == "Crime Index") = true
      · rw [if_pos hp]
        rw [Bool.and_eq_true, beq_iff_eq, beq_iff_eq] at hp
        obtain ⟨s, hs, hskey⟩ := List.any_eq_true.mp hdrop.2
        rw [Bool.and_eq_true, beq_iff_eq, beq_iff_eq] at hskey
        have hps : (s.city == c && s.crimeType == "Crime Index") = true := by
          rw [Bool.and_eq_true, beq_iff_eq, beq_iff_eq]
          exact ⟨hskey.1.trans hp.1, hskey.2.trans (beq_iff_eq.mp hdrop.1)⟩
        have hne : (rest.filter fun r =>
            r.city == c && r.crimeType == "Crime Index") ≠ [] := by
          intro hnil
          rw [List.filter_eq_nil_iff] at hnil
          exact hnil s hs hps
        obtain ⟨hd, tl, heq⟩ := List.exists_cons_of_ne_nil hne
        rw [heq, List.getLast?_cons_cons]
      · rw [if_neg hp]
    · rw [if_neg hdrop, List.filter_cons, List.filter_cons]
      by_cases hp : (r.city == c && r.crimeType == "Crime Index") = true
      · rw [if_pos hp, if_pos hp]
        rw [Bool.and_eq_true, beq_iff_eq, beq_iff_eq] at hp
        have hnone : (rest.filter fun r =>
            r.city == c && r.crimeType == "Crime Index") = [] := by
          rw [List.filter_eq_nil_iff]
          intro s hs hps
          rw [Bool.and_eq_true, beq_iff_eq, beq_iff_eq] at hps
          apply hdrop
          rw [Bool.and_eq_true]
          refine ⟨beq_iff_eq.mpr hp.2, List.any_eq_true.mpr ⟨s, hs, ?_⟩⟩
          rw [Bool.and_eq_true, beq_iff_eq, beq_iff_eq]
          exact ⟨hps.1.trans hp.1.symm, hps.2.trans hp.2.symm⟩
        rw [ih, hnone]
        rfl
      · rw [if_neg hp, if_neg hp, ih]

theorem dedupCI_preserves_nonCI (rows : List CrimeRow) :
    (dedupCI rows).filter (fun r => !(r.crimeType == "Crime Index")) =
      rows.filter fun r => !(r.crimeType == "Crime Index") := by
  induction rows with
  | nil => rfl
  | cons r rest ih =>
    unfold dedupCI
    by_cases hdrop : (r.crimeType == "Crime Index" &&
        rest.any fun s => s.city == r.city && s.crimeType == r.crimeType) = true
    · rw [if_pos hdrop, ih, List.filter_cons]
      rw [Bool.and_eq_true] at hdrop
      rw [show (!(r.crimeType == "Crime Index")) = false by simp [hdrop.1]]
      rfl
    · rw [if_neg hdrop, List.filter_cons, List.filter_cons, ih]

theorem parse_crime_table_rows (t : CrimeTable) (city : String) (df : CrimeDF)
    (h : parse_crime_table t city = some df) :
    df.rows = [] ∨ ∃ rows, df.rows = dedupCI rows := by
  obtain ⟨th, tb, tf⟩ := t
  cases th with
  | none => simp [parse_crime_table] at h
  | some ths =>
    cases tb with
    | none => simp [parse_crime_table] at h
    | some brows =>
      simp only [parse_crime_table] at h
      split at h
      · rw [Option.some.injEq] at h
        left
        rw [← h]
      · rw [Option.some.injEq] at h
        right
        exact ⟨_, by rw [← h]⟩

/-- C8, counterexample: two body rows of the same non-`'Crime Index'`
category survive parsing as a still-duplicated (city, category) pair with
BOTH rows kept — the earlier-constructed row is not dropped. -/
theorem C8_counterexample :
    parse_crime_table
        ⟨some ["Crime", "2022"],
         some [[⟨some "Murders", "Murders"⟩, ⟨none, "5"⟩],
               [⟨some "Murders", "Murders"⟩, ⟨none, "7"⟩]],
         some [⟨none, "Index"⟩, ⟨none, "123.4"⟩]⟩ "Springfield" =
      some ⟨["City", "Crime_Type", "2022"],
        [⟨"Springfield", "Murders", [("2022", "5")]⟩,
         ⟨"Springfield", "Murders", [("2022", "7")]⟩,
         ⟨"Springfield", "Crime Index", [("2022", "123.4")]⟩]⟩ := by
  decide

/-- C8 (amended): the parser's output has at most one `'Crime Index'` row
per city (the footer-derived row is added only when none came from the
body, and the dedup step keeps only the LAST `'Crime Index'` row of a
(city, 'Crime Index') group); but the dedup step touches ONLY
`'Crime Index'` rows — a (city, category) pair of any other category that
is duplicated keeps all its rows. -/
theorem C8_crime_index_dedup :
    (∀ (t : CrimeTable) (city : String) (df : CrimeDF),
        parse_crime_table t city = some df → ∀ c : String,
        (df.rows.filter fun r =>
          r.city == c && r.crimeType == "Crime Index").length ≤ 1) ∧
    (∀ (rows : List CrimeRow) (c : String),
        (dedupCI rows).filter (fun r => r.city == c && r.crimeType == "Crime Index") =
          ((rows.filter fun r =>
            r.city == c && r.crimeType == "Crime Index").getLast?).toList) ∧
    (∀ rows : List CrimeRow,
        (dedupCI rows).filter (fun r => !(r.crimeType == "Crime Index")) =
          rows.filter fun r => !(r.crimeType == "Crime Index")) := by
  refine ⟨?_, dedupCI_filter_CI, dedupCI_preserves_nonCI⟩
  intro t city df h c
  rcases parse_crime_table_rows t city df h with hnil | ⟨rows, hrows⟩
  · rw [hnil]
    simp
  · rw [hrows, dedupCI_filter_CI]
    cases (rows.filter fun r => r.city == c && r.crimeType == "Crime Index").getLast? <;>
      simp

/-- Witness for `C8_crime_index_dedup`: a table whose body holds two
`'Crime Index'` rows parses to a frame with at most one such row. -/
theorem C8_crime_index_dedup_witness :
    ((CrimeDF.mk ["City", "Crime_Type", "2022"]
        [⟨"X", "Crime Index", [("2022", "60")]⟩]).rows.filter fun r =>
      r.city == "X" && r.crimeType == "Crime Index").length ≤ 1 :=
  C8_crime_index_dedup.1
    ⟨some ["Crime", "2022"],
     some [[⟨some "Crime Index", ""⟩, ⟨none, "50.1"⟩],
           [⟨some "Crime Index", ""⟩, ⟨none, "60.2"⟩]],
     none⟩ "X"
    ⟨["City", "Crime_Type", "2022"], [⟨"X", "Crime Index", [("2022", "60")]⟩]⟩
    (by decide) "X"

/-! ## `analysis/data_analysis.py`: `analyze_and_visualize_data`
(the merge portion, lines 13-81)

DataFrames are modelled as a column list plus rows of column-keyed cells;
a cell is a number, a string, or null (NaN). `population_df`/`age_df` are
the `(County, value)` frames the census fetcher returns, `employment_df`
the `(County, unemployment_rate, employed)` frame of the BLS fetcher
(`None` allowed), `crime_df` the parsed crime frame (`None` allowed), and
`target_areas` the resolver's dict items. -/

/-- One DataFrame cell. -/
inductive Val where
  | num (q : ℚ)
  | str (s : String)
  | null
deriving Repr, DecidableEq

/-- A DataFrame: column names and column-keyed rows. -/
structure DF where
  cols : List String
  rows : List (List (String × Val))
deriving Repr, DecidableEq

/-- A possibly-missing numeric cell. -/
def optNum : Option ℚ → Val
  | some q => .num q
  | none => .null

/-- A row's value in a column (`NaN` when absent). -/
def rowVal (row : List (String × Val)) (col : String) : Val :=
  (lookupKey row col).getD .null

/-- `left.merge(right, on=key, how='outer')`: every pairing of
key-matching rows, left rows without a match padded with nulls on the
right columns, right rows without a match padded with nulls on the left
columns. -/
def mergeOuter (l r : DF) (key : String) : DF :=
  let rcols := r.cols.filter fun c => c != key
  ⟨l.cols ++ rcols,
    (l.rows.flatMap fun lr =>
      let ms := r.rows.filter fun rr => rowVal rr key == rowVal lr key
      if ms.isEmpty then [lr ++ rcols.map fun c => (c, Val.null)]
      else ms.map fun rr => lr ++ rcols.map fun c => (c, rowVal rr c)) ++
    ((r.rows.filter fun rr =>
        !(l.rows.any fun lr => rowVal lr key == rowVal rr key)).map fun rr =>
      l.cols.map (fun c => if c == key then (c, rowVal rr key) else (c, Val.null)) ++
        rcols.map fun c => (c, rowVal rr c))⟩

/-- `left.merge(right, on=key, how='left')`: like the outer merge but
unmatched right rows are dropped. -/
def mergeLeft (l r : DF) (key : String) : DF :=
  let rcols := r.cols.filter fun c => c != key
  ⟨l.cols ++ rcols,
    l.rows.flatMap fun lr =>
      let ms := r.rows.filter fun rr => rowVal rr key == rowVal lr key
      if ms.isEmpty then [lr ++ rcols.map fun c => (c, Val.null)]
      else ms.map fun rr => lr ++ rcols.map fun c => (c, rowVal rr c)⟩

/-- `sorted(year_columns)[-1]`: the lexicographically largest name. -/
def lexMax : List String → String
  | [] => ""
  | x :: xs => xs.foldl (fun m s => if m < s then s else m) x

/-- `next((county for city, county in city_to_county_mapping.items() if
city.lower() in x.lower() or x.lower() in city.lower()), x)`: the county
of the first mapping entry matching by case-insensitive bidirectional
substring containment, else the raw crime-city string itself. -/
def mapCityToCounty (mapping : List (String × String)) (x : String) : String :=
  match mapping.find? (fun p =>
      pyContains (pyLower x) (pyLower p.1) || pyContains (pyLower p.1) (pyLower x)) with
  | some p => p.2
  | none => x

/-- Steps 1-3 of the merge: population, then age (outer join on County),
then employment (outer join on County); each absent or empty input is
skipped. -/
def demographicBase (pop age : List (String × Option ℚ))
    (emp : Option (List (String × Option ℚ × Option ℚ))) : DF :=
  let d1 : DF :=
    if pop.isEmpty then ⟨[], []⟩
    else ⟨["County", "Population"],
      pop.map fun p => [("County", Val.str p.1), ("Population", optNum p.2)]⟩
  let ageDF : DF := ⟨["County", "Median Age"],
    age.map fun p => [("County", Val.str p.1), ("Median Age", optNum p.2)]⟩
  let d2 : DF :=
    if age.isEmpty then d1
    else if d1.rows.isEmpty then ageDF
    else mergeOuter d1 ageDF "County"
  match emp with
  | none => d2
  | some edf =>
    if edf.isEmpty then d2
    else
      let empDF : DF := ⟨["County", "unemployment_rate", "employed"],
        edf.map fun p => [("County", Val.str p.1),
          ("unemployment_rate", optNum p.2.1), ("employed", optNum p.2.2)]⟩
      if d2.rows.isEmpty then empDF
      else mergeOuter d2 empDF "County"

/-- The merge portion of `analyze_and_visualize_data`: the demographic
base, then — when crime data, a nonempty crime frame, and target areas are
all supplied — the most-recent-year Crime Index slice keyed to counties by
fuzzy city matching, left-joined on County. The year columns of the crime
frame are those of its column names that end in `'_count'` (and are not
`'Crime_Type'`); when there are none, the crime step is skipped
entirely. -/
def analyzeMerge (pop age : List (String × Option ℚ))
    (emp : Option (List (String × Option ℚ × Option ℚ)))
    (crime : Option CrimeDF) (areas : Option (List (String × TargetArea))) : DF :=
  let base := demographicBase pop age emp
  match crime, areas with
  | some cdf, some amap =>
    if cdf.rows.isEmpty then base
    else
      let cid := cdf.rows.filter fun r => r.crimeType == "Crime Index"
      if cid.isEmpty then base
      else
        let yearCols := cdf.cols.filter fun c => pyEndsWith c "_count" && c != "Crime_Type"
        if yearCols.isEmpty then base
        else
          let latest := lexMax yearCols
          let summary := (cid.map fun r => (r.city, lookupKey r.cells latest)).filterMap
            fun p => p.2.map fun v => (p.1, v)
          let mapping := amap.foldl (fun m p => upsert p.2.city p.2.county m) []
          let crimeDF : DF := ⟨["County", "Crime_Index"],
            summary.map fun p =>
              [("County", Val.str (mapCityToCounty mapping p.1)),
               ("Crime_Index", Val.str p.2)]⟩
          if base.rows.isEmpty then crimeDF
          else mergeLeft base crimeDF "County"
  | _, _ => base

theorem pyIsDigit_not_endsWith_count (c : String) (h : pyIsDigit c = true) :
    pyEndsWith c "_count" = false := by
  rw [Bool.eq_false_iff]
  intro hsuf
  have hs : "_count".toList <:+ c.toList := by
    rw [pyEndsWith, List.isSuffixOf_iff_suffix] at hsuf
    exact hsuf
  have hmem : '_' ∈ c.toList := hs.subset (by decide)
  rw [pyIsDigit, Bool.and_eq_true] at h
  rw [List.all_eq_true] at h
  have := h.2 '_' hmem
  simp at this

theorem parse_crime_table_cols (t : CrimeTable) (city : String) (df : CrimeDF)
    (h : parse_crime_table t city = some df) :
    df.cols = [] ∨
      ∃ l, df.cols = ["City", "Crime_Type"] ++ l ∧ ∀ c ∈ l, pyIsDigit c = true := by
  obtain ⟨th, tb, tf⟩ := t
  cases th with
  | none => simp [parse_crime_table] at h
  | some ths =>
    cases tb with
    | none => simp [parse_crime_table] at h
    | some brows =>
      simp only [parse_crime_table] at h
      split at h
      · rw [Option.some.injEq] at h
        subst h
        left
        rfl
      · rw [Option.some.injEq] at h
        subst h
        right
        exact ⟨_, rfl, fun c hc => (List.mem_filter.mp hc).2⟩

/-- C1: the crime-merge branch of `analyze_and_visualize_data` looks for
year columns ENDING IN `'_count'`, but `parse_crime_table` names its year
columns with bare digits (`'2022'`, ...), so on the crime frames this
pipeline produces the branch never fires: reconciling with crime data is
identical to reconciling without it, no `Crime_Index` column is ever
added, and the claimed left-join (null `Crime_Index` for unmatched
counties) never happens. -/
theorem C1_crime_merge_dead_branch :
    (∀ (pop age : List (String × Option ℚ))
        (emp : Option (List (String × Option ℚ × Option ℚ)))
        (cdf : CrimeDF) (areas : Option (List (String × TargetArea))),
        (∀ c ∈ cdf.cols, pyEndsWith c "_count" = false) →
        analyzeMerge pop age emp (some cdf) areas = analyzeMerge pop age emp none areas) ∧
    (∀ (t : CrimeTable) (city : String) (df : CrimeDF),
        parse_crime_table t city = some df →
        ∀ c ∈ df.cols, pyEndsWith c "_count" = false) ∧
    (analyzeMerge [("Orange County", some 100)] [("Orange County", some 35)] none
        (some ⟨["City", "Crime_Type", "2022"],
          [⟨"Orlando", "Crime Index", [("2022", "123.4")]⟩]⟩)
        (some [("orlando_fl", ⟨"Orlando", "FL", "Orange County", "12", "095"⟩)]) =
      DF.mk ["County", "Population", "Median Age"]
        [[("County", Val.str "Orange County"), ("Population", Val.num 100),
          ("Median Age", Val.num 35)]] ∧
     "Crime_Index" ∉
      (analyzeMerge [("Orange County", some 100)] [("Orange County", some 35)] none
        (some ⟨["City", "Crime_Type", "2022"],
          [⟨"Orlando", "Crime Index", [("2022", "123.4")]⟩]⟩)
        (some [("orlando_fl", ⟨"Orlando", "FL", "Orange County", "12", "095"⟩)])).cols) := by
  refine ⟨?_, ?_, by decide, by decide⟩
  · intro pop age emp cdf areas h
    cases areas with
    | none => rfl
    | some amap =>
      have hyc : (cdf.cols.filter fun c => pyEndsWith c "_count" && c != "Crime_Type") =
          [] := by
        rw [List.filter_eq_nil_iff]
        intro c hc
        simp [h c hc]
      simp [analyzeMerge, hyc]
  · intro t city df h c hc
    rcases parse_crime_table_cols t city df h with hnil | ⟨l, hl, hdig⟩
    · rw [hnil] at hc
      simp at hc
    · rw [hl] at hc
      rcases List.mem_append.mp hc with h2 | h2
      · rcases List.mem_cons.mp h2 with rfl | h3
        · decide
        · rcases List.mem_cons.mp h3 with rfl | h4
          · decide
          · simp at h4
      · exact pyIsDigit_not_endsWith_count c (hdig c h2)

/-- C9: reconciling with `employment=None` and `crime=None` yields exactly
the population/age merge columns `County`, `Population`, `Median Age`;
more generally the absent optional inputs never contribute columns
(`unemployment_rate`, `employed`, `Crime_Index` never appear), and a
result is produced for every input with no minimum-data threshold. -/
theorem C9_merge_without_optionals :
    (∀ pop age : List (String × Option ℚ), pop ≠ [] → age ≠ [] →
        (analyzeMerge pop age none none none).cols =
          ["County", "Population", "Median Age"]) ∧
    (∀ pop age : List (String × Option ℚ),
        "unemployment_rate" ∉ (analyzeMerge pop age none none none).cols ∧
        "employed" ∉ (analyzeMerge pop age none none none).cols ∧
        "Crime_Index" ∉ (analyzeMerge pop age none none none).cols) := by
  constructor
  · intro pop age hpop hage
    cases pop with
    | nil => exact absurd rfl hpop
    | cons p ps =>
      cases age with
      | nil => exact absurd rfl hage
      | cons a as => rfl
  · intro pop age
    cases pop with
    | nil =>
      cases age with
      | nil =>
        show "unemployment_rate" ∉ ([] : List String) ∧
          "employed" ∉ ([] : List String) ∧ "Crime_Index" ∉ ([] : List String)
        decide
      | cons a as =>
        show "unemployment_rate" ∉ (["County", "Median Age"] : List String) ∧
          "employed" ∉ (["County", "Median Age"] : List String) ∧
          "Crime_Index" ∉ (["County", "Median Age"] : List String)
        decide
    | cons p ps =>
      cases age with
      | nil =>
        show "unemployment_rate" ∉ (["County", "Population"] : List String) ∧
          "employed" ∉ (["County", "Population"] : List String) ∧
          "Crime_Index" ∉ (["County", "Population"] : List String)
        decide
      | cons a as =>
        show "unemployment_rate" ∉ (["County", "Population", "Median Age"] : List String) ∧
          "employed" ∉ (["County", "Population", "Median Age"] : List String) ∧
          "Crime_Index" ∉ (["County", "Population", "Median Age"] : List String)
        decide

/-- Witness for `C9_merge_without_optionals` at a concrete nonempty
population/age pair. -/
theorem C9_merge_without_optionals_witness :
    (analyzeMerge [("Orange County", some 100)] [("Orange County", some 35)]
        none none none).cols = ["County", "Population", "Median Age"] :=
  C9_merge_without_optionals.1 [("Orange County", some 100)] [("Orange County", some 35)]
    (by decide) (by decide)

end CityDash
